import Mathlib

/-!
Verification of the torch-pme core: the parameter-validation gate
(`_validate_parameters` in `src/torchpme/_utils.py`) and the potential
hierarchy (`src/torchpme/lib/potentials.py`).

The validation gate is embedded as a total function into `Except ErrTag Unit`,
mirroring the Python control flow statement by statement.  A tensor is
modelled by its shape, dtype tag, device tag and (for the cell, whose
determinant is tested) its entries.  Python exceptions that escape the gate
without being raised by one of its own `raise` statements (the `IndexError`
from `shape[1]` on a tensor of rank < 2, and the `TypeError` from `len()` of
a 0-dimensional tensor) are modelled as dedicated error tags with their
Python exception class recorded by `ErrTag.kind`.

The potential hierarchy is embedded elementwise over the exact reals, with
the incomplete-Gamma primitives of `torch.special` modelled by their
mathematical definitions (Euler integrals divided by `Real.Gamma`) on their
floating-point domains, and `torch.special.gammaln` modelled as `log |Γ|`,
which is what the library documents and computes.  Where `from_k_sq` invokes
`gammaincc` outside that domain (its first argument `(3 - p) / 2` is
nonpositive for exponents `p ≥ 3`, where ATen's `calc_igammac` produces
NaN), a NaN-aware variant `from_k_sq_nan` into `Option ℝ` records the
non-finite outcome as `none`.
-/

/-- Python exception classes that can escape the validation gate. -/
inductive PyKind
  | typeError
  | valueError
  | indexError
deriving DecidableEq

/-- One tag per exit point of `_validate_parameters`: each `raise` statement
of the source gets a tag, and the two possible interpreter-level crashes
(`len()` of a 0-d tensor, `shape[1]` of a rank<2 tensor) get their own. -/
inductive ErrTag
  | posDtype
  | posDevice
  | lenZeroDim
  | posShape
  | cellShape
  | cellDtype
  | cellDevice
  | cellSingular
  | chargesDim
  | chargesShape
  | chargesDtype
  | chargesDevice
  | tupleIndex
  | niShape
  | niDevice
  | ndShape
  | ndDevice
  | ndDtype
deriving DecidableEq

/-- The Python exception class of each exit: the four dtype checks `raise
TypeError`, every other check `raise ValueError`; `len()` of a 0-d tensor is
a `TypeError` and an out-of-range `shape[1]` an `IndexError`. -/
def ErrTag.kind : ErrTag → PyKind
  | .posDtype => .typeError
  | .cellDtype => .typeError
  | .chargesDtype => .typeError
  | .ndDtype => .typeError
  | .lenZeroDim => .typeError
  | .tupleIndex => .indexError
  | _ => .valueError

/-- A tensor as seen by the validation gate: shape, dtype tag, device tag,
and the flattened entries (only read through `cell.det()`). -/
structure Tensor where
  shape : List ℕ
  dtype : ℕ
  device : ℕ
  data : List ℚ
deriving DecidableEq

/-- Determinant of a `[3, 3]` tensor from its nine row-major entries
(`cell.det()`); junk value `0` off the 9-entry case, never reached under the
`[3, 3]` shape check. -/
def det3 (m : List ℚ) : ℚ :=
  match m with
  | [a, b, c, d, e, f, g, h, i] =>
      a * (e * i - f * h) - b * (d * i - f * g) + c * (d * h - e * g)
  | _ => 0

/-- Condition `smearing is not None and torch.equal(cell.det(), 0.0)`. -/
def degenerateCell (smearing : Option ℚ) (cell : Tensor) : Prop :=
  smearing.isSome = true ∧ det3 cell.data = 0

instance (smearing : Option ℚ) (cell : Tensor) :
    Decidable (degenerateCell smearing cell) :=
  inferInstanceAs (Decidable (_ ∧ _))

/-- Embedding of `_validate_parameters` from `src/torchpme/_utils.py`, check for check in
source order.  `num_atoms = len(positions)` crashes on a 0-d tensor
(`lenZeroDim`), and `neighbor_indices.shape[1]` crashes on a rank<2 tensor
(`tupleIndex`); `neighbor_indices[:, 0]` has shape `s0 :: srest` when
`neighbor_indices` has shape `s0 :: s1 :: srest`. -/
def validateParameters (charges cell positions neighborIndices neighborDistances : Tensor)
    (smearing : Option ℚ) (dtype device : ℕ) : Except ErrTag Unit :=
  if positions.dtype ≠ dtype then .error .posDtype
  else if positions.device ≠ device then .error .posDevice
  else
    match positions.shape with
    | [] => .error .lenZeroDim
    | numAtoms :: prest =>
      if numAtoms :: prest ≠ [numAtoms, 3] then .error .posShape
      else if cell.shape ≠ [3, 3] then .error .cellShape
      else if cell.dtype ≠ positions.dtype then .error .cellDtype
      else if cell.device ≠ device then .error .cellDevice
      else if degenerateCell smearing cell then .error .cellSingular
      else if charges.shape.length ≠ 2 then .error .chargesDim
      else if charges.shape ≠ [numAtoms, charges.shape.getD 1 0] then .error .chargesShape
      else if charges.dtype ≠ positions.dtype then .error .chargesDtype
      else if charges.device ≠ device then .error .chargesDevice
      else
        match neighborIndices.shape with
        | [] => .error .tupleIndex
        | [_] => .error .tupleIndex
        | s0 :: s1 :: srest =>
          if s1 ≠ 2 then .error .niShape
          else if neighborIndices.device ≠ device then .error .niDevice
          else if neighborDistances.shape ≠ s0 :: srest then .error .ndShape
          else if neighborDistances.device ≠ device then .error .ndDevice
          else if neighborDistances.dtype ≠ positions.dtype then .error .ndDtype
          else .ok ()

/-- C6: with the positions and cell shape/precision/locality checks passing,
the gate raises the degenerate-geometry error exactly when a smearing value
is supplied and the cell determinant is exactly zero; in particular a
singular cell with a null smearing never triggers this error. -/
theorem validate_degenerate_geometry_iff
    (charges cell positions neighborIndices neighborDistances : Tensor)
    (smearing : Option ℚ) (dtype device n : ℕ)
    (h1 : positions.dtype = dtype) (h2 : positions.device = device)
    (h3 : positions.shape = [n, 3])
    (h4 : cell.shape = [3, 3]) (h5 : cell.dtype = positions.dtype)
    (h6 : cell.device = device) :
    validateParameters charges cell positions neighborIndices neighborDistances
        smearing dtype device = .error .cellSingular
      ↔ (smearing.isSome = true ∧ det3 cell.data = 0) := by
  unfold validateParameters
  rw [h3]
  simp only [h1, h2, h4, h5, h6, ne_eq, not_true_eq_false, if_false, ite_not,
    List.cons.injEq, and_true, not_false_eq_true, if_true]
  by_cases hdeg : degenerateCell smearing cell
  · simp only [if_pos hdeg]
    exact ⟨fun _ => hdeg, fun _ => trivial⟩
  · simp only [if_neg hdeg]
    constructor
    · intro h
      exfalso
      revert h
      repeat' split
      all_goals intro h
      all_goals simp at h
    · intro h
      exact absurd h hdeg

/-- Concrete positions tensor for witnesses: shape `[2, 3]`, dtype 0, device 0. -/
def wPositions : Tensor := ⟨[2, 3], 0, 0, []⟩

/-- Concrete singular cell (third row zero, determinant 0). -/
def wCellSingular : Tensor := ⟨[3, 3], 0, 0, [1, 0, 0, 0, 1, 0, 0, 0, 0]⟩

/-- Concrete non-singular cell (identity, determinant 1). -/
def wCellGood : Tensor := ⟨[3, 3], 0, 0, [1, 0, 0, 0, 1, 0, 0, 0, 1]⟩

/-- Concrete charges tensor: shape `[2, 1]`. -/
def wCharges : Tensor := ⟨[2, 1], 0, 0, []⟩

/-- Concrete well-formed neighbor-indices tensor: shape `[4, 2]`. -/
def wNi : Tensor := ⟨[4, 2], 0, 0, []⟩

/-- Concrete rank-1 neighbor-indices tensor: shape `[4]`. -/
def wNiRank1 : Tensor := ⟨[4], 0, 0, []⟩

/-- Concrete rank-0 neighbor-indices tensor: shape `[]`. -/
def wNiRank0 : Tensor := ⟨[], 0, 0, []⟩

/-- Concrete neighbor-indices tensor with second dimension 3: shape `[4, 3]`. -/
def wNiWrongDim : Tensor := ⟨[4, 3], 0, 0, []⟩

/-- Concrete neighbor-distances tensor: shape `[4]`. -/
def wNd : Tensor := ⟨[4], 0, 0, []⟩

/-- Witness for C6: at a concrete singular cell with a null smearing, the
degenerate-geometry error is raised exactly under the (here false) condition
that a smearing is supplied. -/
theorem validate_degenerate_geometry_iff_witness :
    wPositions.dtype = 0 ∧ wPositions.device = 0 ∧ wPositions.shape = [2, 3] ∧
    wCellSingular.shape = [3, 3] ∧ wCellSingular.dtype = wPositions.dtype ∧
    wCellSingular.device = 0 ∧
    (validateParameters wCharges wCellSingular wPositions wNi wNd none 0 0 =
        .error .cellSingular
      ↔ ((none : Option ℚ).isSome = true ∧ det3 wCellSingular.data = 0)) :=
  ⟨rfl, rfl, rfl, rfl, rfl, rfl,
    validate_degenerate_geometry_iff wCharges wCellSingular wPositions wNi wNd
      none 0 0 2 rfl rfl rfl rfl rfl rfl⟩

/-- C9: the gate checks no dtype on neighbor_indices: with every other
contract satisfied, validation succeeds for every dtype `d` of
neighbor_indices, including one differing from the declared class dtype. -/
theorem validate_ok_any_neighbor_indices_dtype
    (charges cell positions neighborIndices neighborDistances : Tensor)
    (smearing : Option ℚ) (dtype device n c s0 : ℕ) (srest : List ℕ)
    (h1 : positions.dtype = dtype) (h2 : positions.device = device)
    (h3 : positions.shape = [n, 3])
    (h4 : cell.shape = [3, 3]) (h5 : cell.dtype = positions.dtype)
    (h6 : cell.device = device)
    (h7 : ¬ degenerateCell smearing cell)
    (h8 : charges.shape = [n, c]) (h9 : charges.dtype = positions.dtype)
    (h10 : charges.device = device)
    (h11 : neighborIndices.shape = s0 :: 2 :: srest)
    (h12 : neighborIndices.device = device)
    (h13 : neighborDistances.shape = s0 :: srest)
    (h14 : neighborDistances.device = device)
    (h15 : neighborDistances.dtype = positions.dtype) :
    ∀ d : ℕ,
      validateParameters charges cell positions { neighborIndices with dtype := d }
        neighborDistances smearing dtype device = .ok () := by
  intro d
  unfold validateParameters
  rw [h3]
  simp [h1, h2, h4, h5, h6, h7, h8, h9, h10, h11, h12, h13, h14, h15]

/-- Witness for C9: a fully valid call in which neighbor_indices carries
dtype 7 while the declared class dtype is 0 still validates. -/
theorem validate_ok_any_neighbor_indices_dtype_witness :
    wPositions.dtype = 0 ∧ wPositions.device = 0 ∧ wPositions.shape = [2, 3] ∧
    wCellGood.shape = [3, 3] ∧ wCellGood.dtype = wPositions.dtype ∧
    wCellGood.device = 0 ∧ ¬ degenerateCell none wCellGood ∧
    wCharges.shape = [2, 1] ∧ wCharges.dtype = wPositions.dtype ∧
    wCharges.device = 0 ∧ wNi.shape = 4 :: 2 :: [] ∧ wNi.device = 0 ∧
    wNd.shape = 4 :: [] ∧ wNd.device = 0 ∧ wNd.dtype = wPositions.dtype ∧
    validateParameters wCharges wCellGood wPositions { wNi with dtype := 7 }
      wNd none 0 0 = .ok () :=
  ⟨rfl, rfl, rfl, rfl, rfl, rfl, by decide, rfl, rfl, rfl, rfl, rfl, rfl, rfl, rfl,
    validate_ok_any_neighbor_indices_dtype wCharges wCellGood wPositions wNi wNd
      none 0 0 2 1 4 [] rfl rfl rfl rfl rfl rfl (by decide) rfl rfl rfl rfl rfl
      rfl rfl rfl 7⟩

/-- C5 (amended): with every input other than the neighbor data satisfying
its contract, a neighbor_indices of rank at least 2 whose second dimension is
not 2 raises the shape-mismatch ValueError; a neighbor_indices of rank below
2 instead escapes with an IndexError from the `shape[1]` access; and a
neighbor_distances whose shape differs from that of the first column
`neighbor_indices[:, 0]` raises the shape-mismatch ValueError. -/
theorem validate_neighbor_shape_errors
    (charges cell positions neighborIndices neighborDistances : Tensor)
    (smearing : Option ℚ) (dtype device n c : ℕ)
    (h1 : positions.dtype = dtype) (h2 : positions.device = device)
    (h3 : positions.shape = [n, 3])
    (h4 : cell.shape = [3, 3]) (h5 : cell.dtype = positions.dtype)
    (h6 : cell.device = device)
    (h7 : ¬ degenerateCell smearing cell)
    (h8 : charges.shape = [n, c]) (h9 : charges.dtype = positions.dtype)
    (h10 : charges.device = device) :
    (neighborIndices.shape.length < 2 →
      validateParameters charges cell positions neighborIndices neighborDistances
          smearing dtype device = .error .tupleIndex
        ∧ ErrTag.tupleIndex.kind = PyKind.indexError)
    ∧ (∀ s0 s1 srest, neighborIndices.shape = s0 :: s1 :: srest → s1 ≠ 2 →
      validateParameters charges cell positions neighborIndices neighborDistances
          smearing dtype device = .error .niShape
        ∧ ErrTag.niShape.kind = PyKind.valueError)
    ∧ (∀ s0 srest, neighborIndices.shape = s0 :: 2 :: srest →
        neighborIndices.device = device →
        neighborDistances.shape ≠ s0 :: srest →
      validateParameters charges cell positions neighborIndices neighborDistances
          smearing dtype device = .error .ndShape
        ∧ ErrTag.ndShape.kind = PyKind.valueError) := by
  refine ⟨fun hlen => ⟨?_, rfl⟩,
    fun s0 s1 srest hsh hs1 => ⟨?_, rfl⟩,
    fun s0 srest hsh hdev hnd => ⟨?_, rfl⟩⟩ <;>
    (unfold validateParameters
     rw [h3]
     simp only [h1, h2, h4, h5, h6, h7, h8, h9, h10, ne_eq, not_true_eq_false,
       if_false, ite_not, List.cons.injEq, and_true, not_false_eq_true, if_true,
       List.length_cons, List.length_nil, List.getD])
  · rcases hni : neighborIndices.shape with _ | ⟨a, _ | ⟨b, rest⟩⟩
    · simp [hni, h7, h8, h9, h10]
    · simp [hni, h7, h8, h9, h10]
    · rw [hni] at hlen
      simp only [List.length_cons] at hlen
      omega
  · simp [hsh, hs1, h7, h8, h9, h10]
  · simp [hsh, hdev, hnd, h7, h8, h9, h10]

/-- C5 counterexample: with every other input satisfying its contract, a
rank-1 neighbor_indices (shape `[4]`) makes the gate escape with the
IndexError of the `shape[1]` access instead of raising the promised
shape-mismatch ValueError. -/
theorem validate_rank1_neighbor_indices_no_shape_error :
    validateParameters wCharges wCellGood wPositions wNiRank1 wNd none 0 0 =
        .error .tupleIndex
      ∧ ErrTag.tupleIndex.kind ≠ PyKind.valueError :=
  ⟨rfl, by decide⟩

/-- Witness for C5 (amended): a neighbor_indices of shape `[4, 3]` raises the
shape-mismatch error, whose Python class is ValueError. -/
theorem validate_neighbor_shape_errors_witness :
    wPositions.dtype = 0 ∧ wPositions.device = 0 ∧ wPositions.shape = [2, 3] ∧
    wCellGood.shape = [3, 3] ∧ wCellGood.dtype = wPositions.dtype ∧
    wCellGood.device = 0 ∧ ¬ degenerateCell none wCellGood ∧
    wCharges.shape = [2, 1] ∧ wCharges.dtype = wPositions.dtype ∧
    wCharges.device = 0 ∧ wNiWrongDim.shape = 4 :: 3 :: [] ∧ (3 : ℕ) ≠ 2 ∧
    (validateParameters wCharges wCellGood wPositions wNiWrongDim wNd none 0 0 =
        .error .niShape
      ∧ ErrTag.niShape.kind = PyKind.valueError) :=
  ⟨rfl, rfl, rfl, rfl, rfl, rfl, by decide, rfl, rfl, rfl, rfl, by decide,
    (validate_neighbor_shape_errors wCharges wCellGood wPositions wNiWrongDim wNd
        none 0 0 2 1 rfl rfl rfl rfl rfl rfl (by decide) rfl rfl rfl).2.1
      4 3 [] rfl (by decide)⟩

/-- Inversion of a two-way branch returning `Except`: used to peel the
validation gate's if-chain one check at a time. -/
theorem ite_except_inv {α β : Type} {c : Prop} [Decidable c] {e1 e2 r : Except α β}
    (h : (if c then e1 else e2) = r) : (c ∧ e1 = r) ∨ (¬ c ∧ e2 = r) := by
  by_cases hc : c
  · exact Or.inl ⟨hc, by rwa [if_pos hc] at h⟩
  · exact Or.inr ⟨hc, by rwa [if_neg hc] at h⟩

/-- C10 (amended): every Python TypeError the gate surfaces comes from one of
the four dtype checks or from len() of a 0-dimensional positions tensor; a
Python IndexError is surfaced only when neighbor_indices has rank below 2;
and every error the gate surfaces is a TypeError, a ValueError, or that one
IndexError escape -- a third class at the interface. -/
theorem validate_error_taxonomy
    (charges cell positions neighborIndices neighborDistances : Tensor)
    (smearing : Option ℚ) (dtype device : ℕ) (t : ErrTag)
    (h : validateParameters charges cell positions neighborIndices neighborDistances
      smearing dtype device = .error t) :
    (t.kind = PyKind.typeError →
        positions.dtype ≠ dtype ∨ cell.dtype ≠ positions.dtype
          ∨ charges.dtype ≠ positions.dtype
          ∨ neighborDistances.dtype ≠ positions.dtype
          ∨ positions.shape = [])
    ∧ (t.kind = PyKind.indexError → neighborIndices.shape.length < 2)
    ∧ (t.kind = PyKind.typeError ∨ t.kind = PyKind.valueError
        ∨ t = ErrTag.tupleIndex) := by
  unfold validateParameters at h
  rcases ite_except_inv h with ⟨c, h⟩ | ⟨_, h⟩
  · injection h with h'; subst h'
    exact ⟨fun _ => Or.inl c, fun hk => PyKind.noConfusion hk, Or.inl rfl⟩
  rcases ite_except_inv h with ⟨c, h⟩ | ⟨_, h⟩
  · injection h with h'; subst h'
    exact ⟨fun hk => PyKind.noConfusion hk, fun hk => PyKind.noConfusion hk,
      Or.inr (Or.inl rfl)⟩
  rcases hps : positions.shape with _ | ⟨numAtoms, prest⟩
  · try rw [hps] at h
    injection h with h'; subst h'
    exact ⟨fun _ => Or.inr (Or.inr (Or.inr (Or.inr (by simp [hps])))),
      fun hk => PyKind.noConfusion hk, Or.inl rfl⟩
  try rw [hps] at h
  rcases ite_except_inv h with ⟨c, h⟩ | ⟨_, h⟩
  · injection h with h'; subst h'
    exact ⟨fun hk => PyKind.noConfusion hk, fun hk => PyKind.noConfusion hk,
      Or.inr (Or.inl rfl)⟩
  rcases ite_except_inv h with ⟨c, h⟩ | ⟨_, h⟩
  · injection h with h'; subst h'
    exact ⟨fun hk => PyKind.noConfusion hk, fun hk => PyKind.noConfusion hk,
      Or.inr (Or.inl rfl)⟩
  rcases ite_except_inv h with ⟨c, h⟩ | ⟨_, h⟩
  · injection h with h'; subst h'
    exact ⟨fun _ => Or.inr (Or.inl c), fun hk => PyKind.noConfusion hk, Or.inl rfl⟩
  rcases ite_except_inv h with ⟨c, h⟩ | ⟨_, h⟩
  · injection h with h'; subst h'
    exact ⟨fun hk => PyKind.noConfusion hk, fun hk => PyKind.noConfusion hk,
      Or.inr (Or.inl rfl)⟩
  rcases ite_except_inv h with ⟨c, h⟩ | ⟨_, h⟩
  · injection h with h'; subst h'
    exact ⟨fun hk => PyKind.noConfusion hk, fun hk => PyKind.noConfusion hk,
      Or.inr (Or.inl rfl)⟩
  rcases ite_except_inv h with ⟨c, h⟩ | ⟨_, h⟩
  · injection h with h'; subst h'
    exact ⟨fun hk => PyKind.noConfusion hk, fun hk => PyKind.noConfusion hk,
      Or.inr (Or.inl rfl)⟩
  rcases ite_except_inv h with ⟨c, h⟩ | ⟨_, h⟩
  · injection h with h'; subst h'
    exact ⟨fun hk => PyKind.noConfusion hk, fun hk => PyKind.noConfusion hk,
      Or.inr (Or.inl rfl)⟩
  rcases ite_except_inv h with ⟨c, h⟩ | ⟨_, h⟩
  · injection h with h'; subst h'
    exact ⟨fun _ => Or.inr (Or.inr (Or.inl c)), fun hk => PyKind.noConfusion hk,
      Or.inl rfl⟩
  rcases ite_except_inv h with ⟨c, h⟩ | ⟨_, h⟩
  · injection h with h'; subst h'
    exact ⟨fun hk => PyKind.noConfusion hk, fun hk => PyKind.noConfusion hk,
      Or.inr (Or.inl rfl)⟩
  rcases hni : neighborIndices.shape with _ | ⟨a, tail⟩
  · try rw [hni] at h
    injection h with h'; subst h'
    exact ⟨fun hk => PyKind.noConfusion hk, fun _ => by simp [hni],
      Or.inr (Or.inr rfl)⟩
  rcases htl : tail with _ | ⟨b, rest⟩
  · subst htl
    try rw [hni] at h
    injection h with h'; subst h'
    exact ⟨fun hk => PyKind.noConfusion hk, fun _ => by simp [hni],
      Or.inr (Or.inr rfl)⟩
  subst htl
  try rw [hni] at h
  rcases ite_except_inv h with ⟨c, h⟩ | ⟨_, h⟩
  · injection h with h'; subst h'
    exact ⟨fun hk => PyKind.noConfusion hk, fun hk => PyKind.noConfusion hk,
      Or.inr (Or.inl rfl)⟩
  rcases ite_except_inv h with ⟨c, h⟩ | ⟨_, h⟩
  · injection h with h'; subst h'
    exact ⟨fun hk => PyKind.noConfusion hk, fun hk => PyKind.noConfusion hk,
      Or.inr (Or.inl rfl)⟩
  rcases ite_except_inv h with ⟨c, h⟩ | ⟨_, h⟩
  · injection h with h'; subst h'
    exact ⟨fun hk => PyKind.noConfusion hk, fun hk => PyKind.noConfusion hk,
      Or.inr (Or.inl rfl)⟩
  rcases ite_except_inv h with ⟨c, h⟩ | ⟨_, h⟩
  · injection h with h'; subst h'
    exact ⟨fun hk => PyKind.noConfusion hk, fun hk => PyKind.noConfusion hk,
      Or.inr (Or.inl rfl)⟩
  rcases ite_except_inv h with ⟨c, h⟩ | ⟨_, h⟩
  · injection h with h'; subst h'
    exact ⟨fun _ => Or.inr (Or.inr (Or.inr (Or.inl c))),
      fun hk => PyKind.noConfusion hk, Or.inl rfl⟩
  exact Except.noConfusion h

/-- Positions tensor carrying dtype tag 1 while the class dtype is 0. -/
def wPositionsF64 : Tensor := ⟨[2, 3], 1, 0, []⟩

/-- Witness for C10 (amended): a positions dtype mismatch produces the
posDtype error, whose class is TypeError, and the taxonomy conclusions hold
at it. -/
theorem validate_error_taxonomy_witness :
    validateParameters wCharges wCellGood wPositionsF64 wNi wNd none 0 0 =
        .error .posDtype
    ∧ ((ErrTag.posDtype.kind = PyKind.typeError →
        wPositionsF64.dtype ≠ 0 ∨ wCellGood.dtype ≠ wPositionsF64.dtype
          ∨ wCharges.dtype ≠ wPositionsF64.dtype ∨ wNd.dtype ≠ wPositionsF64.dtype
          ∨ wPositionsF64.shape = [])
      ∧ (ErrTag.posDtype.kind = PyKind.indexError → wNi.shape.length < 2)
      ∧ (ErrTag.posDtype.kind = PyKind.typeError
          ∨ ErrTag.posDtype.kind = PyKind.valueError
          ∨ ErrTag.posDtype = ErrTag.tupleIndex)) :=
  ⟨rfl, validate_error_taxonomy wCharges wCellGood wPositionsF64 wNi wNd none 0 0
    ErrTag.posDtype rfl⟩

/-- C10 counterexample: a rank-0 neighbor_indices surfaces the IndexError of
the `shape[1]` access -- an error class at the interface that is neither the
TypeError nor the ValueError of the documented two-kind taxonomy. -/
theorem validate_error_third_kind :
    validateParameters wCharges wCellGood wPositions wNiRank0 wNd none 0 0 =
        .error .tupleIndex
      ∧ ErrTag.tupleIndex.kind ≠ PyKind.typeError
      ∧ ErrTag.tupleIndex.kind ≠ PyKind.valueError :=
  ⟨rfl, by decide, by decide⟩

open MeasureTheory in
/-- Lower incomplete Gamma integral over `(0, x]` (the numerator of
`torch.special.gammainc`). -/
noncomputable def lowerGammaInt (a x : ℝ) : ℝ :=
  ∫ t in Set.Ioc 0 x, Real.exp (-t) * t ^ (a - 1)

open MeasureTheory in
/-- Upper incomplete Gamma integral over `(x, ∞)` (the numerator of
`torch.special.gammaincc`). -/
noncomputable def upperGammaInt (a x : ℝ) : ℝ :=
  ∫ t in Set.Ioi x, Real.exp (-t) * t ^ (a - 1)

/-- Function `torch.special.gammainc`: the lower regularized incomplete Gamma
function `P(a, x)`. -/
noncomputable def gammainc (a x : ℝ) : ℝ := lowerGammaInt a x / Real.Gamma a

/-- Function `torch.special.gammaincc`: the upper regularized incomplete Gamma
function `Q(a, x)`. -/
noncomputable def gammaincc (a x : ℝ) : ℝ := upperGammaInt a x / Real.Gamma a

/-- Function `torch.special.gammaln`: the natural logarithm of the absolute value of
the Gamma function, as the library documents. -/
noncomputable def gammaln (x : ℝ) : ℝ := Real.log |Real.Gamma x|

/-- The repository's `gamma` helper: `torch.exp(gammaln(x))`
(`potentials.py`, lines 13-14). -/
noncomputable def gamma (x : ℝ) : ℝ := Real.exp (gammaln x)

/-- Error raised by the abstract potential interface methods. -/
inductive PotErr
  | notImplemented
deriving DecidableEq

namespace BasePotential

/-- Method `BasePotential.from_dist`: the abstract default raises
NotImplementedError for every input tensor. -/
def from_dist (dist : List ℝ) : Except PotErr (List ℝ) := .error .notImplemented

/-- Method `BasePotential.from_dist_sq`: `self.from_dist(torch.sqrt(dist_sq))`,
elementwise, with the dynamically dispatched `from_dist` of the concrete
subclass passed explicitly. -/
noncomputable def from_dist_sq (selfFromDist : ℝ → ℝ) (dist_sq : ℝ) : ℝ :=
  selfFromDist (Real.sqrt dist_sq)

end BasePotential

namespace RangeSeparatedPotential

/-- Method `RangeSeparatedPotential.sr_from_dist`: abstract, raises
NotImplementedError for every input tensor. -/
def sr_from_dist (dist : List ℝ) : Except PotErr (List ℝ) := .error .notImplemented

/-- Method `RangeSeparatedPotential.lr_from_dist`: abstract, raises
NotImplementedError for every input tensor. -/
def lr_from_dist (dist : List ℝ) : Except PotErr (List ℝ) := .error .notImplemented

end RangeSeparatedPotential

/-- The state of `InversePowerLawPotential`: the exponent `p` and the
smearing `sigma`, set in `__init__` and never reassigned. -/
structure InversePowerLawPotential where
  exponent : ℝ
  smearing : ℝ

namespace InversePowerLawPotential

/-- Method `from_dist`: `torch.pow(dist, -self.exponent)`, elementwise. -/
noncomputable def from_dist (self : InversePowerLawPotential) (dist : ℝ) : ℝ :=
  dist ^ (-self.exponent)

/-- Method `from_dist_sq`: `torch.pow(dist_sq, -self.exponent / 2.0)`,
elementwise. -/
noncomputable def from_dist_sq (self : InversePowerLawPotential) (dist_sq : ℝ) : ℝ :=
  dist_sq ^ (-self.exponent / 2)

/-- Method `sr_from_dist`: with `x = 0.5 * dist**2 / smearing**2`,
`peff = exponent / 2` and `prefac = 1 / (2 * smearing**2) ** peff`, returns
`prefac * gammaincc(peff, x) / x ** peff`, elementwise. -/
noncomputable def sr_from_dist (self : InversePowerLawPotential) (dist : ℝ) : ℝ :=
  let x := 0.5 * dist ^ 2 / self.smearing ^ 2
  let peff := self.exponent / 2
  let prefac := 1 / (2 * self.smearing ^ 2) ^ peff
  prefac * gammaincc peff x / x ^ peff

/-- Method `lr_from_dist`: identical to `sr_from_dist` with `gammainc` in place of
`gammaincc`, elementwise. -/
noncomputable def lr_from_dist (self : InversePowerLawPotential) (dist : ℝ) : ℝ :=
  let x := 0.5 * dist ^ 2 / self.smearing ^ 2
  let peff := self.exponent / 2
  let prefac := 1 / (2 * self.smearing ^ 2) ^ peff
  prefac * gammainc peff x / x ^ peff

/-- Method `from_k_sq`: with `peff = (3 - exponent) / 2`,
`prefac = pi**1.5 / gamma(exponent / 2) * (2 * smearing**2) ** peff` and
`x = 0.5 * smearing**2 * k_sq`, returns
`torch.where(k_sq == 0, 0.0, prefac * gammaincc(peff, x) / x ** peff * gamma(peff))`,
elementwise. -/
noncomputable def from_k_sq (self : InversePowerLawPotential) (k_sq : ℝ) : ℝ :=
  let peff := (3 - self.exponent) / 2
  let prefac := Real.pi ^ (1.5 : ℝ) / gamma (self.exponent / 2)
    * (2 * self.smearing ^ 2) ^ peff
  let x := 0.5 * self.smearing ^ 2 * k_sq
  if k_sq = 0 then 0 else prefac * gammaincc peff x / x ^ peff * gamma peff

/-- Modelled from the spec: the reciprocal-space long-range formula of
section 4.4 written with the mathematical complete Gamma function, for
comparison with `from_k_sq`:
`V_LR(k_sq) = [pi^1.5 / Gamma(p/2)] * (2 sigma^2)^peff * Q(peff, x) * Gamma(peff) / x^peff`
with `peff = (3-p)/2` and `x = sigma^2 k_sq / 2`. -/
noncomputable def from_k_sq_spec (self : InversePowerLawPotential) (k_sq : ℝ) : ℝ :=
  let peff := (3 - self.exponent) / 2
  let x := self.smearing ^ 2 * k_sq / 2
  Real.pi ^ (1.5 : ℝ) / Real.Gamma (self.exponent / 2)
    * (2 * self.smearing ^ 2) ^ peff
    * gammaincc peff x * Real.Gamma peff / x ^ peff

/-- One invocation of `from_dist` on a tensor, with explicit state passing:
returns the fresh output together with the (unchanged) potential state and
the (unchanged) input array. -/
noncomputable def from_dist_call (self : InversePowerLawPotential) (dist : List ℝ) :
    List ℝ × InversePowerLawPotential × List ℝ :=
  (dist.map self.from_dist, self, dist)

/-- One invocation of `from_dist_sq` on a tensor, with explicit state
passing. -/
noncomputable def from_dist_sq_call (self : InversePowerLawPotential) (dist_sq : List ℝ) :
    List ℝ × InversePowerLawPotential × List ℝ :=
  (dist_sq.map self.from_dist_sq, self, dist_sq)

/-- One invocation of `sr_from_dist` on a tensor, with explicit state
passing. -/
noncomputable def sr_from_dist_call (self : InversePowerLawPotential) (dist : List ℝ) :
    List ℝ × InversePowerLawPotential × List ℝ :=
  (dist.map self.sr_from_dist, self, dist)

/-- One invocation of `lr_from_dist` on a tensor, with explicit state
passing. -/
noncomputable def lr_from_dist_call (self : InversePowerLawPotential) (dist : List ℝ) :
    List ℝ × InversePowerLawPotential × List ℝ :=
  (dist.map self.lr_from_dist, self, dist)

/-- One invocation of `from_k_sq` on a tensor, with explicit state
passing. -/
noncomputable def from_k_sq_call (self : InversePowerLawPotential) (k_sq : List ℝ) :
    List ℝ × InversePowerLawPotential × List ℝ :=
  (k_sq.map self.from_k_sq, self, k_sq)

end InversePowerLawPotential

/-- For a positive first argument the lower and upper incomplete Gamma
integrals split the full Euler integral of `Real.Gamma`. -/
theorem lowerGammaInt_add_upperGammaInt {a x : ℝ} (ha : 0 < a) (hx : 0 ≤ x) :
    lowerGammaInt a x + upperGammaInt a x = Real.Gamma a := by
  unfold lowerGammaInt upperGammaInt
  rw [Real.Gamma_eq_integral ha, ← Set.Ioc_union_Ioi_eq_Ioi hx,
    MeasureTheory.setIntegral_union Set.Ioc_disjoint_Ioi_same measurableSet_Ioi
      ((Real.GammaIntegral_convergent ha).mono_set Set.Ioc_subset_Ioi_self)
      ((Real.GammaIntegral_convergent ha).mono_set (Set.Ioi_subset_Ioi hx))]

/-- The lower and upper regularized incomplete Gamma functions sum to 1 at
fixed arguments (positive first argument, nonnegative second). -/
theorem gammainc_add_gammaincc {a x : ℝ} (ha : 0 < a) (hx : 0 ≤ x) :
    gammainc a x + gammaincc a x = 1 := by
  unfold gammainc gammaincc
  rw [div_add_div_same, lowerGammaInt_add_upperGammaInt ha hx,
    div_self (Real.Gamma_pos_of_pos ha).ne']

/-- C1: for every exponent p > 0, smearing sigma > 0 and distance r > 0, the
short-range and long-range real-space parts of the inverse-power-law
potential sum exactly to the full potential `r ^ (-p)`. -/
theorem sr_add_lr_eq_from_dist (self : InversePowerLawPotential) (r : ℝ)
    (hp : 0 < self.exponent) (hs : 0 < self.smearing) (hr : 0 < r) :
    self.sr_from_dist r + self.lr_from_dist r = self.from_dist r := by
  unfold InversePowerLawPotential.sr_from_dist InversePowerLawPotential.lr_from_dist
    InversePowerLawPotential.from_dist
  have hs2 : (0 : ℝ) < 2 * self.smearing ^ 2 := by positivity
  have hx : (0 : ℝ) < 0.5 * r ^ 2 / self.smearing ^ 2 := by positivity
  have hpe : (0 : ℝ) < self.exponent / 2 := by positivity
  have key : gammainc (self.exponent / 2) (0.5 * r ^ 2 / self.smearing ^ 2)
      + gammaincc (self.exponent / 2) (0.5 * r ^ 2 / self.smearing ^ 2) = 1 :=
    gammainc_add_gammaincc hpe hx.le
  have collect :
      1 / (2 * self.smearing ^ 2) ^ (self.exponent / 2)
          * gammaincc (self.exponent / 2) (0.5 * r ^ 2 / self.smearing ^ 2)
          / (0.5 * r ^ 2 / self.smearing ^ 2) ^ (self.exponent / 2)
        + 1 / (2 * self.smearing ^ 2) ^ (self.exponent / 2)
          * gammainc (self.exponent / 2) (0.5 * r ^ 2 / self.smearing ^ 2)
          / (0.5 * r ^ 2 / self.smearing ^ 2) ^ (self.exponent / 2)
        = (gammainc (self.exponent / 2) (0.5 * r ^ 2 / self.smearing ^ 2)
            + gammaincc (self.exponent / 2) (0.5 * r ^ 2 / self.smearing ^ 2))
          / ((2 * self.smearing ^ 2) ^ (self.exponent / 2)
            * (0.5 * r ^ 2 / self.smearing ^ 2) ^ (self.exponent / 2)) := by
    ring
  rw [collect, key, ← Real.mul_rpow hs2.le hx.le]
  have hbase : 2 * self.smearing ^ 2 * (0.5 * r ^ 2 / self.smearing ^ 2) = r ^ 2 := by
    field_simp
    ring
  rw [hbase, ← Real.rpow_natCast r 2, ← Real.rpow_mul hr.le, one_div,
    ← Real.rpow_neg hr.le]
  norm_num
  rw [show -(2 * (self.exponent / 2)) = -self.exponent by ring]

/-- Witness for C1 at p = 1, sigma = 1, r = 1. -/
theorem sr_add_lr_eq_from_dist_witness :
    (0 : ℝ) < (InversePowerLawPotential.mk 1 1).exponent
      ∧ (0 : ℝ) < (InversePowerLawPotential.mk 1 1).smearing
      ∧ (0 : ℝ) < 1
      ∧ (InversePowerLawPotential.mk 1 1).sr_from_dist 1
          + (InversePowerLawPotential.mk 1 1).lr_from_dist 1
        = (InversePowerLawPotential.mk 1 1).from_dist 1 :=
  ⟨by norm_num, by norm_num, by norm_num,
    sr_add_lr_eq_from_dist ⟨1, 1⟩ 1 (by norm_num) (by norm_num) (by norm_num)⟩

/-- C2: the reciprocal-space long-range evaluator returns exactly 0 on the
k-squared = 0 element for every exponent and smearing, through the explicit
branch on the zero mask -- also when the exponent exceeds 3 and a finite
nonzero mathematical limit exists. -/
theorem from_k_sq_zero (self : InversePowerLawPotential) :
    self.from_k_sq 0 = 0 := by
  unfold InversePowerLawPotential.from_k_sq
  simp

/-- C4: evaluating by squared distance agrees with evaluating by distance at
the square root: the base-class default is exactly that composition for any
dispatched `from_dist`, and the inverse-power-law override
`dist_sq ^ (-p/2)` equals `(sqrt dist_sq) ^ (-p)` over the reals for every
nonnegative squared distance. -/
theorem from_dist_sq_eq_from_dist_sqrt (self : InversePowerLawPotential)
    (f : ℝ → ℝ) (s : ℝ) (hs : 0 ≤ s) :
    BasePotential.from_dist_sq f s = f (Real.sqrt s)
      ∧ self.from_dist_sq s = self.from_dist (Real.sqrt s) := by
  refine ⟨rfl, ?_⟩
  unfold InversePowerLawPotential.from_dist_sq InversePowerLawPotential.from_dist
  rw [Real.sqrt_eq_rpow, ← Real.rpow_mul hs]
  congr 1
  ring

/-- Witness for C4 at squared distance 4, with p = 1, sigma = 1 and the
exponential as a sample dispatched `from_dist`. -/
theorem from_dist_sq_eq_from_dist_sqrt_witness :
    (0 : ℝ) ≤ 4
      ∧ (BasePotential.from_dist_sq Real.exp 4 = Real.exp (Real.sqrt 4)
        ∧ (InversePowerLawPotential.mk 1 1).from_dist_sq 4
          = (InversePowerLawPotential.mk 1 1).from_dist (Real.sqrt 4)) :=
  ⟨by norm_num, from_dist_sq_eq_from_dist_sqrt ⟨1, 1⟩ Real.exp 4 (by norm_num)⟩

/-- C7: the abstract `from_dist` of the base potential and the abstract
`sr_from_dist` and `lr_from_dist` of the range-separated potential raise the
not-implemented capability error on every input tensor and never return a
numeric value. -/
theorem abstract_evaluators_raise_not_implemented :
    ∀ dist : List ℝ,
      BasePotential.from_dist dist = .error .notImplemented
      ∧ RangeSeparatedPotential.sr_from_dist dist = .error .notImplemented
      ∧ RangeSeparatedPotential.lr_from_dist dist = .error .notImplemented
      ∧ ∀ v : List ℝ,
          BasePotential.from_dist dist ≠ .ok v
          ∧ RangeSeparatedPotential.sr_from_dist dist ≠ .ok v
          ∧ RangeSeparatedPotential.lr_from_dist dist ≠ .ok v :=
  fun _ =>
    ⟨rfl, rfl, rfl, fun _ =>
      ⟨fun h => Except.noConfusion h, fun h => Except.noConfusion h,
        fun h => Except.noConfusion h⟩⟩

/-- C8: each inverse-power-law evaluator is deterministic and stateless:
invoking it twice in sequence on the same potential and input array yields
the same output both times, and no invocation changes the potential's state
(exponent, smearing) or its input array. -/
theorem evaluators_deterministic_stateless (self : InversePowerLawPotential)
    (d : List ℝ) :
    (((self.from_dist_call d).2.1.from_dist_call (self.from_dist_call d).2.2).1
        = (self.from_dist_call d).1
      ∧ (self.from_dist_call d).2.1 = self ∧ (self.from_dist_call d).2.2 = d)
    ∧ (((self.from_dist_sq_call d).2.1.from_dist_sq_call
          (self.from_dist_sq_call d).2.2).1 = (self.from_dist_sq_call d).1
      ∧ (self.from_dist_sq_call d).2.1 = self ∧ (self.from_dist_sq_call d).2.2 = d)
    ∧ (((self.sr_from_dist_call d).2.1.sr_from_dist_call
          (self.sr_from_dist_call d).2.2).1 = (self.sr_from_dist_call d).1
      ∧ (self.sr_from_dist_call d).2.1 = self ∧ (self.sr_from_dist_call d).2.2 = d)
    ∧ (((self.lr_from_dist_call d).2.1.lr_from_dist_call
          (self.lr_from_dist_call d).2.2).1 = (self.lr_from_dist_call d).1
      ∧ (self.lr_from_dist_call d).2.1 = self ∧ (self.lr_from_dist_call d).2.2 = d)
    ∧ (((self.from_k_sq_call d).2.1.from_k_sq_call (self.from_k_sq_call d).2.2).1
        = (self.from_k_sq_call d).1
      ∧ (self.from_k_sq_call d).2.1 = self ∧ (self.from_k_sq_call d).2.2 = d) :=
  ⟨⟨rfl, rfl, rfl⟩, ⟨rfl, rfl, rfl⟩, ⟨rfl, rfl, rfl⟩, ⟨rfl, rfl, rfl⟩,
    ⟨rfl, rfl, rfl⟩⟩

/-- Where the true Gamma value is positive, the repository's
`exp(gammaln(x))` recovers it exactly. -/
theorem gamma_eq_Gamma_of_pos {x : ℝ} (hx : 0 < Real.Gamma x) :
    gamma x = Real.Gamma x := by
  unfold gamma gammaln
  rw [abs_of_pos hx, Real.exp_log hx]

/-- Method `from_k_sq` with the floating-point domain behavior of the Gamma
primitives made explicit, elementwise: `some v` models a finite result `v`
of the source computation and `none` a non-finite one (NaN, possibly through
an infinity).  `torch.special.gammaincc` returns NaN for a negative first or
second argument (ATen `calc_igammac`); at first argument 0 with positive
second argument it returns 0, which then meets
`gamma(0) = exp(gammaln(0)) = exp(+inf) = +inf` in a `0 * inf = NaN`
product, and NaN at second argument 0 as well; and at `x = 0` with positive
`peff` (zero smearing) the expression is `0 * 1 / 0 = NaN`.  So for
`k_sq ≠ 0` the computed branch is non-finite unless `0 < peff` and `0 < x`;
there every factor is finite, except that a pole of `gammaln` at
`exponent / 2` (a nonpositive integer, so `Real.Gamma` vanishes there) gives
`prefac = pi**1.5 / inf * finite = 0` and hence a finite zero result. -/
noncomputable def InversePowerLawPotential.from_k_sq_nan
    (self : InversePowerLawPotential) (k_sq : ℝ) : Option ℝ :=
  let peff := (3 - self.exponent) / 2
  let x := 0.5 * self.smearing ^ 2 * k_sq
  if k_sq = 0 then some 0
  else if 0 < peff ∧ 0 < x then
    if Real.Gamma (self.exponent / 2) = 0 then some 0
    else some (Real.pi ^ (1.5 : ℝ) / gamma (self.exponent / 2)
      * (2 * self.smearing ^ 2) ^ peff * gammaincc peff x / x ^ peff
      * gamma peff)
  else none

/-- C3 (amended): for every exponent 0 < p < 3, smearing sigma > 0 and
k-squared > 0, every Gamma primitive in `from_k_sq` is evaluated inside its
floating-point domain, the result is finite and agrees with the pure
elementwise value, and that value coincides with the spec's closed formula
written with the mathematical Gamma function.  For p >= 3 the first
`gammaincc` argument `(3 - p) / 2` is nonpositive and the computed branch is
NaN instead of the spec formula's value. -/
theorem from_k_sq_nan_eq_spec (self : InversePowerLawPotential) (k_sq : ℝ)
    (hp : 0 < self.exponent) (hp3 : self.exponent < 3)
    (hs : 0 < self.smearing) (hk : 0 < k_sq) :
    self.from_k_sq_nan k_sq = some (self.from_k_sq k_sq)
      ∧ self.from_k_sq k_sq = self.from_k_sq_spec k_sq := by
  have hpe : 0 < (3 - self.exponent) / 2 := by linarith
  have hx : 0 < 0.5 * self.smearing ^ 2 * k_sq := by positivity
  have hG2 : 0 < Real.Gamma (self.exponent / 2) :=
    Real.Gamma_pos_of_pos (by positivity)
  have hGpe : 0 < Real.Gamma ((3 - self.exponent) / 2) :=
    Real.Gamma_pos_of_pos hpe
  constructor
  · unfold InversePowerLawPotential.from_k_sq_nan
      InversePowerLawPotential.from_k_sq
    rw [if_neg hk.ne', if_pos ⟨hpe, hx⟩, if_neg hG2.ne', if_neg hk.ne']
  · unfold InversePowerLawPotential.from_k_sq
      InversePowerLawPotential.from_k_sq_spec
    rw [if_neg hk.ne']
    rw [gamma_eq_Gamma_of_pos hGpe, gamma_eq_Gamma_of_pos hG2]
    rw [show 0.5 * self.smearing ^ 2 * k_sq = self.smearing ^ 2 * k_sq / 2
      by ring]
    ring

/-- Witness for C3 (amended) at p = 1, sigma = 1, k-squared = 2. -/
theorem from_k_sq_nan_eq_spec_witness :
    (0 : ℝ) < (InversePowerLawPotential.mk 1 1).exponent
      ∧ (InversePowerLawPotential.mk 1 1).exponent < 3
      ∧ (0 : ℝ) < (InversePowerLawPotential.mk 1 1).smearing
      ∧ (0 : ℝ) < 2
      ∧ ((InversePowerLawPotential.mk 1 1).from_k_sq_nan 2
          = some ((InversePowerLawPotential.mk 1 1).from_k_sq 2)
        ∧ (InversePowerLawPotential.mk 1 1).from_k_sq 2
          = (InversePowerLawPotential.mk 1 1).from_k_sq_spec 2) :=
  ⟨by norm_num, by norm_num, by norm_num, by norm_num,
    from_k_sq_nan_eq_spec ⟨1, 1⟩ 2 (by norm_num) (by norm_num) (by norm_num)
      (by norm_num)⟩

/-- C3 counterexample: at p = 4, sigma = 1, k-squared = 2 the first argument
of `gammaincc` is `(3 - 4) / 2 = -1/2`, negative and hence outside the
domain of `torch.special.gammaincc`, so the implementation returns NaN
(modelled `none`) and in particular does not equal the finite value of the
spec formula. -/
theorem from_k_sq_nan_ne_spec_at_p4 :
    InversePowerLawPotential.from_k_sq_nan ⟨4, 1⟩ 2 = none
      ∧ InversePowerLawPotential.from_k_sq_nan ⟨4, 1⟩ 2
        ≠ some (InversePowerLawPotential.from_k_sq_spec ⟨4, 1⟩ 2) := by
  have h : InversePowerLawPotential.from_k_sq_nan ⟨4, 1⟩ 2 = none := by
    unfold InversePowerLawPotential.from_k_sq_nan
    norm_num
  exact ⟨h, by rw [h]; simp⟩
